import Mathlib

/-!
Verification of the extraction service in `app.py`.

The service is a single-endpoint HTTP pipeline: validate an uploaded PDF,
read two fixed configuration files, extract the PDF text, build a prompt,
call the Gemini model, parse its answer as JSON, respond, and best-effort
persist the result.  The embedding below translates each function of
`app.py` into a Lean function.  External collaborators (the filesystem,
PyPDF2, the Gemini SDK, `json.loads` on the model answer) are supplied as
request-environment data, exactly as the spec treats them: interfaces
consumed, not implemented here.  `json.dump` / `json.loads` on the values
this service itself persists are modelled concretely below (`jsonDumps`,
`jsonParse`) so that the serialization round-trip can be proved.
-/

/-- JSON values as produced by Python's `json` module from a model answer:
`null`, booleans, numbers, strings, arrays, and objects (ordered key/value
pairs, insertion order preserved as in Python dicts).  Numbers are modelled
as integers; float round-tripping is a floating-point concern outside this
embedding. -/
inductive Json where
  | null : Json
  | bool (b : Bool) : Json
  | num (n : Int) : Json
  | str (s : String) : Json
  | arr (xs : List Json) : Json
  | obj (kvs : List (String × Json)) : Json

/-- Whether a parsed JSON value is `null`, i.e. whether `json.loads` handed
back the Python object `None`. -/
def Json.isNull : Json → Bool
  | .null => true
  | _ => false

/-- An uploaded multipart file: the client-supplied filename and raw bytes. -/
structure UploadedFile where
  filename : String
  content : List Nat
deriving DecidableEq

/-- One generated candidate of a Gemini response; `parts` are its text
content parts (a candidate with no parts is treated as empty by the code). -/
structure Candidate where
  parts : List String
deriving DecidableEq

/-- A Gemini response: a list of candidates.  `response.text` is the
concatenated text of the first candidate's parts (SDK behavior). -/
structure GeminiResponse where
  candidates : List Candidate
deriving DecidableEq

/-- SDK accessor `response.text`: the joined parts of the first candidate. -/
def GeminiResponse.text (r : GeminiResponse) : String :=
  String.join ((r.candidates.headD ⟨[]⟩).parts)

/-- Outcome of `model.generate_content(full_prompt)`: either the call raised
(transport, auth, quota, ...) or it returned a response object. -/
inductive GeminiOutcome where
  | raises (msg : String)
  | returns (r : GeminiResponse)

/-- Outcome of `open(filepath).read()` for a configuration file: contents,
`FileNotFoundError`, or any other I/O error. -/
inductive ReadResult where
  | ok (contents : String)
  | notFound
  | ioError (msg : String)
deriving DecidableEq

/-- Outcome of `PyPDF2.PdfReader` on the uploaded bytes: a
`PyPDF2.errors.PdfReadError`, some other exception, or a document whose
pages yield the given extracted texts (in document order). -/
inductive PdfParse where
  | readError
  | otherError (msg : String)
  | doc (pages : List String)

/-- The request-scoped environment: the uploaded file (if a `file` part was
present) plus the behavior of every external collaborator the pipeline
consumes during this request. -/
structure Env where
  /-- `request.files["file"]` if present. -/
  file : Option UploadedFile
  /-- Filesystem behavior for reading `ONTOLOGY_FILE`. -/
  ontology : ReadResult
  /-- Filesystem behavior for reading `PROMPT_FILE`. -/
  promptTpl : ReadResult
  /-- PyPDF2 behavior on the uploaded byte stream. -/
  pdfOf : List Nat → PdfParse
  /-- Whether `genai.GenerativeModel(...)` itself raises. -/
  modelInitFails : Bool
  /-- `model.generate_content` behavior as a function of the prompt sent. -/
  gemini : String → GeminiOutcome
  /-- `json.loads` on the model's text: `none` models `json.JSONDecodeError`.
  Note JSON `null` parses to `some Json.null`; the Python value it yields is
  `None`, a fact applied where the code compares against `None`. -/
  loads : String → Option Json
  /-- Whether `os.makedirs(output_dir, exist_ok=True)` raises, and with what
  message. -/
  mkdirsError : Option String
  /-- Whether `open(filepath, "w")` / `json.dump` raises, and with what
  message. -/
  writeError : Option String

/-- Observable side effects of one request: configuration paths read, prompts
sent to the LLM (one entry per `generate_content` invocation), and files
successfully written as (path, serialized content). -/
structure Effects where
  configReads : List String
  llmPrompts : List String
  written : List (String × String)
deriving DecidableEq

/-- Result of the Flask view function: either a (status, JSON body) response,
or an uncaught exception escaping the view function. -/
inductive Outcome where
  | response (status : Nat) (body : Json)
  | crash (exn : String)

/-- Payload shape `jsonify({"error": msg})`: the error payload shape used by the handler. -/
def errBody (msg : String) : Json := .obj [("error", .str msg)]

/-- The `ONTOLOGY_FILE` constant from `app.py`. -/
def ONTOLOGY_FILE : String := "D:/DowryProject/dowryONTO_updated.rdf"

/-- The `PROMPT_FILE` constant from `app.py`. -/
def PROMPT_FILE : String := "D:/DowryProject/code.txt"

/-- The `OUTPUT_DIR` constant from `app.py`. -/
def OUTPUT_DIR : String := "output"

/-- Python `str.lower()` restricted to ASCII letters (the only characters
whose lowering can influence the `.pdf` suffix check). -/
def pyLower (s : String) : String := String.mk (s.data.map Char.toLower)

/-- Python `str.endswith(suffix)`: character-wise suffix test. -/
def pyEndsWith (s suffix : String) : Bool := List.isSuffixOf suffix.data s.data

/-- Python `str.rfind(ch)`: index of the last occurrence, `-1` if absent. -/
def pyRfind (ch : Char) (cs : List Char) : Int :=
  cs.enum.foldl (fun acc p => if p.2 = ch then (p.1 : Int) else acc) (-1)

/-- Python `os.path.splitext`: split off the extension at the last dot of the
last path component, except that leading dots of the component never start an
extension.  Both `\` and `/` are treated as separators as on the Windows host
the constants in `app.py` point at. -/
def splitext (p : String) : String × String :=
  let cs := p.data
  let sepIndex : Int := max (pyRfind '\\' cs) (pyRfind '/' cs)
  let dotIndex : Int := pyRfind '.' cs
  if sepIndex < dotIndex ∧
      cs.enum.any (fun ic =>
        decide (sepIndex < (ic.1 : Int) ∧ (ic.1 : Int) < dotIndex ∧ ic.2 ≠ '.')) then
    (String.mk (cs.take dotIndex.toNat), String.mk (cs.drop dotIndex.toNat))
  else
    (p, "")

/-- Function `read_file(filepath)` from `app.py`: returns the contents, or `None`
after printing a diagnostic; `FileNotFoundError` and any other failure are
reported with distinct messages.  The second component is the list of
diagnostics printed. -/
def read_file (filepath : String) (r : ReadResult) : Option String × List String :=
  match r with
  | .ok s => (some s, [])
  | .notFound => (none, ["Error: File not found at " ++ filepath])
  | .ioError e => (none, ["Error reading file " ++ filepath ++ ": " ++ e])

/-- Function `extract_text_from_pdf` from `app.py`: `text = ""` then
`text += page.extract_text()` over every page in order; any `PdfReadError`
or other exception yields `None`. -/
def extract_text_from_pdf (p : PdfParse) : Option String :=
  match p with
  | .readError => none
  | .otherError _ => none
  | .doc pages => some (pages.foldl (fun acc t => acc ++ t) "")

/-- The f-string `full_prompt` of `extract_concepts_with_gemini`, with the
template, ontology and document text interpolated exactly as in `app.py`. -/
def full_prompt (document_text ontology_text prompt_template : String) : String :=
  prompt_template ++ "\n\n    ONTOLOGY CONTEXT:\n    ```xml\n    " ++ ontology_text
    ++ "\n    ```\n\n    DOCUMENT TO ANALYZE:\n    ```text\n    " ++ document_text
    ++ "\n    ```\n\n    EXTRACTED JSON OUTPUT:"

/-- Function `extract_concepts_with_gemini` from `app.py`.  Returns the Python return
value of the function (where `none` is Python `None`: every failure branch,
and also a successfully parsed JSON `null`, since `json.loads("null")` is
`None`), paired with the list of prompts actually sent to
`generate_content`. -/
def extract_concepts_with_gemini (modelInitFails : Bool)
    (gemini : String → GeminiOutcome) (loads : String → Option Json)
    (document_text ontology_text prompt_template : String) :
    Option Json × List String :=
  let fp := full_prompt document_text ontology_text prompt_template
  if modelInitFails then (none, [])
  else
    match gemini fp with
    | .raises _ => (none, [fp])
    | .returns r =>
      if r.candidates.isEmpty then (none, [fp])
      else if (r.candidates.headD ⟨[]⟩).parts.isEmpty then (none, [fp])
      else
        match loads r.text with
        | none => (none, [fp])
        | some v => (if v.isNull then none else some v, [fp])

/-- Outcome of `save_output`: the file was written with the given serialized
content, or the failure was caught and logged, or an exception escaped
`save_output` itself. -/
inductive SaveOutcome where
  | saved (filepath : String) (content : String)
  | writeFailedLogged (logMsg : String)
  | raised (exn : String)
deriving DecidableEq

/-- Decimal digit character for a value below ten (used by `natChars`). -/
def digitChar (n : Nat) : Char :=
  match n with
  | 0 => '0' | 1 => '1' | 2 => '2' | 3 => '3' | 4 => '4'
  | 5 => '5' | 6 => '6' | 7 => '7' | 8 => '8' | _ => '9'

/-- Decimal digits of a natural number, most significant first, as Python's
`repr` prints it inside `json.dump`. -/
def natChars (n : Nat) : List Char :=
  if _h : n < 10 then [digitChar n]
  else natChars (n / 10) ++ [digitChar (n % 10)]
decreasing_by exact Nat.div_lt_self (by omega) (by omega)

/-- Decimal rendering of a Python integer as `json.dump` prints it. -/
def intChars (n : Int) : List Char :=
  if n < 0 then '-' :: natChars n.natAbs else natChars n.natAbs

/-- Lowercase hexadecimal digit character for a value below sixteen. -/
def hexDigitChar (n : Nat) : Char :=
  match n with
  | 0 => '0' | 1 => '1' | 2 => '2' | 3 => '3' | 4 => '4'
  | 5 => '5' | 6 => '6' | 7 => '7' | 8 => '8' | 9 => '9'
  | 10 => 'a' | 11 => 'b' | 12 => 'c' | 13 => 'd' | 14 => 'e' | _ => 'f'

/-- CPython `json.encoder.py_encode_basestring` with `ensure_ascii=False`:
escape backslash, double quote, and control characters below U+0020 (named
escapes for backspace, form feed, newline, carriage return, tab; `\u00XX`
otherwise); every other character, non-ASCII included, is kept verbatim. -/
def escChars (c : Char) : List Char :=
  if c = '\\' then ['\\', '\\']
  else if c = '"' then ['\\', '"']
  else if c = '\x08' then ['\\', 'b']
  else if c = '\x0c' then ['\\', 'f']
  else if c = '\n' then ['\\', 'n']
  else if c = '\r' then ['\\', 'r']
  else if c = '\t' then ['\\', 't']
  else if c.toNat < 32 then
    ['\\', 'u', '0', '0', hexDigitChar (c.toNat / 16), hexDigitChar (c.toNat % 16)]
  else [c]

/-- Escape every character of a string body (see `escChars`). -/
def escStr (cs : List Char) : List Char :=
  match cs with
  | [] => []
  | c :: rest => escChars c ++ escStr rest

/-- A JSON string literal: quote, escaped body, quote. -/
def strQuote (s : String) : List Char := '"' :: (escStr s.data ++ ['"'])

/-- The newline-plus-indentation `json.dump` emits with `indent=4` before an
element nested at depth `d`. -/
def nlInd (d : Nat) : List Char := '\n' :: List.replicate (4 * d) ' '

/-- Characters of the `null` literal. -/
def nullChars : List Char := ['n', 'u', 'l', 'l']

/-- Characters of the `true` literal. -/
def trueChars : List Char := ['t', 'r', 'u', 'e']

/-- Characters of the `false` literal. -/
def falseChars : List Char := ['f', 'a', 'l', 's', 'e']

mutual
/-- The `json.dump(data, f, indent=4, ensure_ascii=False)` rendering of a value
nested at depth `d` (Python's `json.encoder` with `item_separator=","` and
`key_separator=": "`). -/
def dumpVal (d : Nat) : Json → List Char
  | .null => nullChars
  | .bool true => trueChars
  | .bool false => falseChars
  | .num n => intChars n
  | .str s => strQuote s
  | .arr [] => ['[', ']']
  | .arr (x :: xs) =>
    '[' :: (nlInd (d + 1) ++ dumpVal (d + 1) x ++ dumpElems (d + 1) xs
      ++ nlInd d ++ [']'])
  | .obj [] => ['\x7b', '\x7d']
  | .obj (kv :: kvs) =>
    '\x7b' :: (nlInd (d + 1) ++ dumpMember (d + 1) kv ++ dumpMembers (d + 1) kvs
      ++ nlInd d ++ ['\x7d'])

/-- Continuation elements of a non-empty array: `,` newline indent element. -/
def dumpElems (d : Nat) : List Json → List Char
  | [] => []
  | x :: xs => ',' :: (nlInd d ++ dumpVal d x ++ dumpElems d xs)

/-- One object member: quoted key, `: `, value. -/
def dumpMember (d : Nat) : String × Json → List Char
  | (k, v) => strQuote k ++ (':' :: ' ' :: dumpVal d v)

/-- Continuation members of a non-empty object. -/
def dumpMembers (d : Nat) : List (String × Json) → List Char
  | [] => []
  | kv :: kvs => ',' :: (nlInd d ++ dumpMember d kv ++ dumpMembers d kvs)
end

/-- The exact file content `json.dump(data, f, indent=4, ensure_ascii=False)`
writes for `data`. -/
def jsonDumps (v : Json) : String := String.mk (dumpVal 0 v)

/-- JSON insignificant whitespace (RFC 8259 / CPython `json.decoder`):
space, tab, newline, carriage return. -/
def isWsChar (c : Char) : Bool := c = ' ' || c = '\t' || c = '\n' || c = '\r'

/-- Drop leading JSON whitespace. -/
def skipWs : List Char → List Char
  | [] => []
  | c :: cs => if isWsChar c then skipWs cs else c :: cs

/-- Strip an expected literal continuation (`ull`, `rue`, `alse`). -/
def dropPref : List Char → List Char → Option (List Char)
  | [], cs => some cs
  | p :: ps, c :: cs => if c = p then dropPref ps cs else none
  | _ :: _, [] => none

/-- Value of a hexadecimal digit character, if it is one. -/
def hexVal (c : Char) : Option Nat :=
  if c.isDigit then some (c.toNat - 48)
  else if 'a' ≤ c ∧ c ≤ 'f' then some (c.toNat - 87)
  else if 'A' ≤ c ∧ c ≤ 'F' then some (c.toNat - 55)
  else none

/-- Decode one string escape after a backslash, returning the character and
the remaining input.  `\uXXXX` escapes in the surrogate range are rejected:
this embedding represents strings over Unicode scalar values. -/
def escDecode : List Char → Option (Char × List Char)
  | [] => none
  | c :: r =>
    if c = '"' then some ('"', r)
    else if c = '\\' then some ('\\', r)
    else if c = '/' then some ('/', r)
    else if c = 'b' then some ('\x08', r)
    else if c = 'f' then some ('\x0c', r)
    else if c = 'n' then some ('\n', r)
    else if c = 'r' then some ('\r', r)
    else if c = 't' then some ('\t', r)
    else if c = 'u' then
      match r with
      | h1 :: h2 :: h3 :: h4 :: r2 =>
        match hexVal h1, hexVal h2, hexVal h3, hexVal h4 with
        | some a, some b, some c2, some d2 =>
          let n := ((a * 16 + b) * 16 + c2) * 16 + d2
          if n < 55296 ∨ 57344 ≤ n then some (Char.ofNat n, r2) else none
        | _, _, _, _ => none
      | _ => none
    else none

/-- Parse the body of a JSON string literal (after the opening quote) up to
and including the closing quote; unescaped control characters are rejected
as in CPython's strict decoder. -/
def parseStrChars : Nat → List Char → Option (List Char × List Char)
  | 0, _ => none
  | f + 1, cs =>
    match cs with
    | [] => none
    | c :: r =>
      if c = '"' then some ([], r)
      else if c = '\\' then
        match escDecode r with
        | some (e, r2) =>
          match parseStrChars f r2 with
          | some (body, r3) => some (e :: body, r3)
          | none => none
        | none => none
      else if c.toNat < 32 then none
      else
        match parseStrChars f r with
        | some (body, r3) => some (c :: body, r3)
        | none => none

/-- Greedily split off leading decimal digits. -/
def takeDigits : List Char → List Char × List Char
  | [] => ([], [])
  | c :: r =>
    if c.isDigit then
      let p := takeDigits r
      (c :: p.1, p.2)
    else ([], c :: r)

/-- Numeric value of a digit string, most significant digit first. -/
def decodeDigits (ds : List Char) : Nat :=
  ds.foldl (fun a c => a * 10 + (c.toNat - 48)) 0

/-- Whether the input does not continue with a decimal digit (used to state
that number parsing is maximal). -/
def headNotDigit : List Char → Bool
  | [] => true
  | c :: _ => !c.isDigit

mutual
/-- Recursive-descent JSON value parser modelling `json.loads` on the
documents this service writes: literals, integers, strings, arrays,
objects, arbitrary insignificant whitespace.  `fuel` bounds recursion
depth; `jsonParse` supplies more than any input can consume. -/
def parseVal : Nat → List Char → Option (Json × List Char)
  | 0, _ => none
  | f + 1, cs =>
    match skipWs cs with
    | [] => none
    | c :: r =>
      if c = 'n' then (dropPref ['u', 'l', 'l'] r).map (fun r2 => (Json.null, r2))
      else if c = 't' then (dropPref ['r', 'u', 'e'] r).map (fun r2 => (Json.bool true, r2))
      else if c = 'f' then (dropPref ['a', 'l', 's', 'e'] r).map (fun r2 => (Json.bool false, r2))
      else if c = '"' then
        match parseStrChars f r with
        | some (body, r2) => some (Json.str (String.mk body), r2)
        | none => none
      else if c = '-' then
        let p := takeDigits r
        if p.1.isEmpty then none else some (Json.num (-(decodeDigits p.1 : Int)), p.2)
      else if c.isDigit then
        let p := takeDigits (c :: r)
        if p.1.isEmpty then none else some (Json.num (decodeDigits p.1 : Int), p.2)
      else if c = '[' then
        match skipWs r with
        | [] => none
        | c2 :: r2 =>
          if c2 = ']' then some (Json.arr [], r2)
          else
            match parseElems f (c2 :: r2) with
            | some (xs, r3) => some (Json.arr xs, r3)
            | none => none
      else if c = '\x7b' then
        match skipWs r with
        | [] => none
        | c2 :: r2 =>
          if c2 = '\x7d' then some (Json.obj [], r2)
          else
            match parseMembers f (c2 :: r2) with
            | some (kvs, r3) => some (Json.obj kvs, r3)
            | none => none
      else none

/-- Parse the comma-separated elements of a non-empty array up to and
including the closing bracket. -/
def parseElems : Nat → List Char → Option (List Json × List Char)
  | 0, _ => none
  | f + 1, cs =>
    match parseVal f cs with
    | none => none
    | some (v, r) =>
      match skipWs r with
      | [] => none
      | c :: r2 =>
        if c = ',' then
          match parseElems f r2 with
          | some (vs, r3) => some (v :: vs, r3)
          | none => none
        else if c = ']' then some ([v], r2)
        else none

/-- Parse the comma-separated members of a non-empty object up to and
including the closing brace. -/
def parseMembers : Nat → List Char → Option (List (String × Json) × List Char)
  | 0, _ => none
  | f + 1, cs =>
    match skipWs cs with
    | [] => none
    | c :: r =>
      if c = '"' then
        match parseStrChars f r with
        | none => none
        | some (k, r2) =>
          match skipWs r2 with
          | [] => none
          | c2 :: r3 =>
            if c2 = ':' then
              match parseVal f r3 with
              | none => none
              | some (v, r4) =>
                match skipWs r4 with
                | [] => none
                | c3 :: r5 =>
                  if c3 = ',' then
                    match parseMembers f r5 with
                    | some (kvs, r6) => some ((String.mk k, v) :: kvs, r6)
                    | none => none
                  else if c3 = '\x7d' then some ([(String.mk k, v)], r5)
                  else none
            else none
      else none
end

/-- Model of `json.loads` on a persisted output file: parse one JSON document and
require that only whitespace remains. -/
def jsonParse (s : String) : Option Json :=
  match parseVal (s.data.length + 1) s.data with
  | some (v, rest) => if skipWs rest = [] then some v else none
  | none => none

/-- Function `save_output(filename, data, output_dir)` from `app.py`.  The `try` body
runs `os.makedirs`, assigns `filepath`, and writes the file; the `except`
block prints a message that interpolates `filepath`.  When `os.makedirs`
itself raises, `filepath` is still unassigned, so the `except` block raises
`UnboundLocalError`, which escapes `save_output`. -/
def save_output (filename : String) (data : Json) (output_dir : String)
    (mkdirsError writeError : Option String) : SaveOutcome :=
  match mkdirsError with
  | some _ =>
    .raised "UnboundLocalError: local variable filepath referenced before assignment"
  | none =>
    let filepath := output_dir ++ "/" ++ filename
    match writeError with
    | some e => .writeFailedLogged ("Error saving output to " ++ filepath ++ ": " ++ e)
    | none => .saved filepath (jsonDumps data)

/-- Lines 158-170 of `app.py`: the request validator.  Missing `file` part,
empty filename, and a filename whose lowercase form does not end in `.pdf`
are rejected with the corresponding error payload; otherwise the file is
passed through unchanged. -/
def validate (file : Option UploadedFile) : Except Json UploadedFile :=
  match file with
  | none => .error (errBody "No file part in the request")
  | some f =>
    if f.filename = "" then .error (errBody "No selected file")
    else if pyEndsWith (pyLower f.filename) ".pdf" = false then
      .error (errBody "Invalid file type. Please upload a PDF.")
    else .ok f

/-- The 400 message for an unreadable PDF (line 186 of `app.py`). -/
def pdfErrMsg : String :=
  "Failed to extract text from the PDF file. It might be invalid, corrupted, or image-based."

/-- The 500 message for a configuration read failure (line 179 of `app.py`). -/
def cfgErrMsg : String := "Server configuration error reading ontology or prompt."

/-- The 500 message for an LLM extraction failure (line 204 of `app.py`). -/
def llmErrMsg : String := "Failed to extract information using the AI model."

/-- Function `handle_extraction` from `app.py`: the `POST /summary` view function,
returning the response (or the uncaught exception escaping the view) plus
the request's observable side effects. -/
def handle_extraction (env : Env) : Outcome × Effects :=
  match validate env.file with
  | .error b => (.response 400 b, ⟨[], [], []⟩)
  | .ok f =>
    let ontology_content := (read_file ONTOLOGY_FILE env.ontology).1
    let prompt_template_content := (read_file PROMPT_FILE env.promptTpl).1
    let reads := [ONTOLOGY_FILE, PROMPT_FILE]
    match ontology_content, prompt_template_content with
    | some oc, some tc =>
      (match extract_text_from_pdf (env.pdfOf f.content) with
       | none => (.response 400 (errBody pdfErrMsg), ⟨reads, [], []⟩)
       | some pdf_text =>
         let r := extract_concepts_with_gemini env.modelInitFails env.gemini
           env.loads pdf_text oc tc
         match r.1 with
         | some extracted_data =>
           (match save_output ((splitext f.filename).1 ++ "_extraction.json")
               extracted_data OUTPUT_DIR env.mkdirsError env.writeError with
            | .raised e => (.crash e, ⟨reads, r.2, []⟩)
            | .saved p c => (.response 200 extracted_data, ⟨reads, r.2, [(p, c)]⟩)
            | .writeFailedLogged _ => (.response 200 extracted_data, ⟨reads, r.2, []⟩))
         | none => (.response 500 (errBody llmErrMsg), ⟨reads, r.2, []⟩))
    | _, _ => (.response 500 (errBody cfgErrMsg), ⟨reads, [], []⟩)

/-- The response shape claimed for the endpoint: exactly one response whose
status is 200, 400 or 500, where every 400 or 500 body is a JSON object with
a single `error` key holding a message string. -/
def responseWellFormed (o : Outcome) : Prop :=
  ∃ s b, o = .response s b ∧ (s = 200 ∨ s = 400 ∨ s = 500) ∧
    ((s = 400 ∨ s = 500) → ∃ m, b = errBody m)

/-- The labeled XML fenced block opening that the composed prompt places
between the template and the ontology. -/
def ontologyBlockOpen : String := "\n\n    ONTOLOGY CONTEXT:\n    ```xml\n    "

/-- The fence closing the ontology block together with the labeled text
fenced block opening that precedes the document text. -/
def documentBlockOpen : String := "\n    ```\n\n    DOCUMENT TO ANALYZE:\n    ```text\n    "

/-- The literal trailing marker requesting JSON output. -/
def jsonOutputMarker : String := "\n    ```\n\n    EXTRACTED JSON OUTPUT:"

/-- A concrete `json.loads` behavior for witness environments: recognizes
the two model answers the witnesses use. -/
def witLoads (s : String) : Option Json :=
  if s = "null" then some Json.null
  else if s = "42" then some (Json.num 42)
  else none

/-- Baseline concrete request environment for witnesses: a valid `.pdf`
upload with one text page, readable configuration files, a Gemini response
with one candidate whose single part is `42`, and a working filesystem. -/
def witBase : Env :=
  { file := some ⟨"case.pdf", [37, 80, 68, 70]⟩
    ontology := .ok "ONT"
    promptTpl := .ok "TPL"
    pdfOf := fun _ => .doc ["some text"]
    modelInitFails := false
    gemini := fun _ => .returns ⟨[⟨["42"]⟩]⟩
    loads := witLoads
    mkdirsError := none
    writeError := none }

/-- Environment `witBase` with the model answering the literal JSON document `null`. -/
def envNullAnswer : Env := { witBase with gemini := fun _ => .returns ⟨[⟨["null"]⟩]⟩ }

/-- Environment `witBase` with `os.makedirs` failing inside the output writer. -/
def envMkdirFail : Env := { witBase with mkdirsError := some "PermissionError" }

/-- Environment `witBase` with an upper-case `.PDF` filename. -/
def envUpperExt : Env := { witBase with file := some ⟨"CASE.PDF", [37]⟩ }

/-- Environment `witBase` with a `.txt` upload. -/
def envTxt : Env := { witBase with file := some ⟨"notes.txt", [37]⟩ }

/-- Environment `witBase` with no `file` part in the request. -/
def envNoFile : Env := { witBase with file := none }

/-- Environment `witBase` with PyPDF2 raising `PdfReadError` on the uploaded bytes. -/
def envBadPdf : Env := { witBase with pdfOf := fun _ => .readError }

/-- Environment `witBase` with the ontology configuration file missing. -/
def envCfgMissing : Env := { witBase with ontology := .notFound }

/-- Environment `witBase` with `generate_content` raising a provider error. -/
def envLlmRaises : Env := { witBase with gemini := fun _ => .raises "quota exceeded" }

/-- Environment `witBase` with a PDF whose two pages both yield empty text. -/
def envEmptyPages : Env := { witBase with pdfOf := fun _ => .doc ["", ""] }

/-- A decimal digit character is not JSON whitespace. -/
theorem isWs_false_of_isDigit {c : Char} (h : c.isDigit = true) : isWsChar c = false := by
  unfold isWsChar
  rcases eq_or_ne c ' ' with rfl | h1
  · exact absurd h (by decide)
  rcases eq_or_ne c '\t' with rfl | h2
  · exact absurd h (by decide)
  rcases eq_or_ne c '\n' with rfl | h3
  · exact absurd h (by decide)
  rcases eq_or_ne c '\r' with rfl | h4
  · exact absurd h (by decide)
  simp [h1, h2, h3, h4]

/-- A decimal digit character is none of the characters the value parser
dispatches on before its digit branch, nor a closing delimiter. -/
theorem digit_ne {c : Char} (h : c.isDigit = true) :
    c ≠ 'n' ∧ c ≠ 't' ∧ c ≠ 'f' ∧ c ≠ '"' ∧ c ≠ '-' ∧ c ≠ ']' ∧ c ≠ '\x7d' ∧ c ≠ ',' := by
  refine ⟨?_, ?_, ?_, ?_, ?_, ?_, ?_, ?_⟩ <;> (rintro rfl; exact absurd h (by decide))

theorem skipWs_cons_of_not_ws {c : Char} {cs : List Char} (h : isWsChar c = false) :
    skipWs (c :: cs) = c :: cs := by
  simp [skipWs, h]

theorem skipWs_cons_of_ws {c : Char} {cs : List Char} (h : isWsChar c = true) :
    skipWs (c :: cs) = skipWs cs := by
  simp [skipWs, h]

theorem skipWs_replicate_space (n : Nat) (cs : List Char) :
    skipWs (List.replicate n ' ' ++ cs) = skipWs cs := by
  induction n with
  | zero => rfl
  | succ n ih => simpa [List.replicate_succ, skipWs_cons_of_ws (by decide : isWsChar ' ' = true)] using ih

theorem skipWs_nlInd (d : Nat) (cs : List Char) : skipWs (nlInd d ++ cs) = skipWs cs := by
  simp [nlInd, List.cons_append, skipWs_cons_of_ws (by decide : isWsChar '\n' = true),
    skipWs_replicate_space]

theorem skipWs_idem (cs : List Char) : skipWs (skipWs cs) = skipWs cs := by
  induction cs with
  | nil => rfl
  | cons c cs ih =>
    rcases hw : isWsChar c with _ | _
    · rw [skipWs_cons_of_not_ws hw, skipWs_cons_of_not_ws hw]
    · rw [skipWs_cons_of_ws hw, ih]

theorem dropPref_append (p : List Char) : ∀ cs, dropPref p (p ++ cs) = some cs := by
  induction p with
  | nil => intro cs; rfl
  | cons a l ih => intro cs; simp [dropPref, ih]

/-- Every output of `digitChar` is a decimal digit character. -/
theorem digitChar_isDigit (k : Nat) : (digitChar k).isDigit = true := by
  unfold digitChar; split <;> decide

/-- Decimal value of `digitChar` below ten. -/
theorem digitChar_val {k : Nat} (hk : k < 10) : (digitChar k).toNat - 48 = k := by
  interval_cases k <;> decide

/-- Every character of `natChars n` is a decimal digit. -/
theorem natChars_digits (n : Nat) : ∀ c ∈ natChars n, c.isDigit = true := by
  induction n using Nat.strong_induction_on with
  | _ n ih =>
    rw [natChars]
    split
    · intro c hc
      rw [List.mem_singleton] at hc
      exact hc ▸ digitChar_isDigit n
    · intro c hc
      rcases List.mem_append.1 hc with h | h
      · exact ih (n / 10) (Nat.div_lt_self (by omega) (by omega)) c h
      · rw [List.mem_singleton] at h
        exact h ▸ digitChar_isDigit (n % 10)

/-- The list `natChars n` is a non-empty list starting with a digit. -/
theorem natChars_cons (n : Nat) : ∃ c t, natChars n = c :: t ∧ c.isDigit = true := by
  induction n using Nat.strong_induction_on with
  | _ n ih =>
    rw [natChars]
    split
    · exact ⟨digitChar n, [], rfl, digitChar_isDigit n⟩
    · obtain ⟨c, t, hct, hd⟩ := ih (n / 10) (Nat.div_lt_self (by omega) (by omega))
      exact ⟨c, t ++ [digitChar (n % 10)], by rw [hct]; rfl, hd⟩

theorem decodeDigits_snoc (l : List Char) (c : Char) :
    decodeDigits (l ++ [c]) = decodeDigits l * 10 + (c.toNat - 48) := by
  simp [decodeDigits, List.foldl_append]

/-- Decoding the decimal rendering of `n` recovers `n`. -/
theorem decodeDigits_natChars (n : Nat) : decodeDigits (natChars n) = n := by
  induction n using Nat.strong_induction_on with
  | _ n ih =>
    rw [natChars]
    split
    · next h =>
      simp [decodeDigits, digitChar_val h]
    · next h =>
      rw [decodeDigits_snoc, ih (n / 10) (Nat.div_lt_self (by omega) (by omega)),
        digitChar_val (by omega)]
      omega

/-- Greedy digit reading splits exactly at a prepared digit run when the
remainder does not continue with a digit. -/
theorem takeDigits_append {ds rest : List Char} (hd : ∀ c ∈ ds, c.isDigit = true)
    (hr : headNotDigit rest = true) : takeDigits (ds ++ rest) = (ds, rest) := by
  induction ds with
  | nil =>
    cases rest with
    | nil => rfl
    | cons c r =>
      have : c.isDigit = false := by
        simp [headNotDigit] at hr
        exact hr
      simp [takeDigits, this]
  | cons d ds ih =>
    have hdd : d.isDigit = true := hd d (by simp)
    have := ih (fun c hc => hd c (by simp [hc]))
    simp [takeDigits, hdd, this]

theorem escChars_length_pos (c : Char) : 1 ≤ (escChars c).length := by
  unfold escChars; split_ifs <;> simp

theorem escStr_length (cs : List Char) : cs.length ≤ (escStr cs).length := by
  induction cs with
  | nil => simp [escStr]
  | cons c cs ih =>
    have h1 := escChars_length_pos c
    simp only [escStr, List.length_append, List.length_cons]
    omega

theorem hexVal_hexDigitChar {k : Nat} (hk : k < 16) : hexVal (hexDigitChar k) = some k := by
  interval_cases k <;> decide

/-- Decoding a `\u00XX` escape produced for a control character recovers the
character. -/
theorem escDecode_u {m : Nat} (hm : m < 32) (rem : List Char) :
    escDecode ('u' :: '0' :: '0' :: hexDigitChar (m / 16) :: hexDigitChar (m % 16) :: rem)
      = some (Char.ofNat m, rem) := by
  have e1 : hexVal (hexDigitChar (m / 16)) = some (m / 16) := hexVal_hexDigitChar (by omega)
  have e2 : hexVal (hexDigitChar (m % 16)) = some (m % 16) := hexVal_hexDigitChar (by omega)
  have e0 : hexVal '0' = some 0 := by decide
  have e3 : ((0 * 16 + 0) * 16 + m / 16) * 16 + m % 16 = m := by omega
  have e4 : m < 55296 ∨ 57344 ≤ m := Or.inl (by omega)
  simp [escDecode, e0, e1, e2, e3, e4]
  have e5 : m / 16 * 16 + m % 16 = m := by omega
  rw [e5]
  exact ⟨e4, rfl⟩

/-- Parsing the escaped rendering of a string body, followed by the closing
quote, recovers exactly the body. -/
theorem parseStr_rt : ∀ (cs : List Char) (f : Nat), cs.length + 1 ≤ f → ∀ rest : List Char,
    parseStrChars f (escStr cs ++ ('"' :: rest)) = some (cs, rest) := by
  intro cs
  induction cs with
  | nil =>
    intro f hf rest
    obtain ⟨f', rfl⟩ : ∃ f', f = f' + 1 := ⟨f - 1, by omega⟩
    simp [escStr, parseStrChars]
  | cons c cs ih =>
    intro f hf rest
    obtain ⟨f', rfl⟩ : ∃ f', f = f' + 1 := ⟨f - 1, by omega⟩
    have hf' : cs.length + 1 ≤ f' := by
      simp only [List.length_cons] at hf; omega
    by_cases h1 : c = '\\'
    · subst h1
      simp [escStr, escChars, parseStrChars, escDecode, ih f' hf' rest]
    by_cases h2 : c = '"'
    · subst h2
      simp [escStr, escChars, h1, parseStrChars, escDecode, ih f' hf' rest]
    by_cases h3 : c = '\x08'
    · subst h3
      simp [escStr, escChars, parseStrChars, escDecode, ih f' hf' rest]
    by_cases h4 : c = '\x0c'
    · subst h4
      simp [escStr, escChars, parseStrChars, escDecode, ih f' hf' rest]
    by_cases h5 : c = '\n'
    · subst h5
      simp [escStr, escChars, parseStrChars, escDecode, ih f' hf' rest]
    by_cases h6 : c = '\r'
    · subst h6
      simp [escStr, escChars, parseStrChars, escDecode, ih f' hf' rest]
    by_cases h7 : c = '\t'
    · subst h7
      simp [escStr, escChars, parseStrChars, escDecode, ih f' hf' rest]
    by_cases h8 : c.toNat < 32
    · have hu := escDecode_u h8 (escStr cs ++ '"' :: rest)
      rw [Char.ofNat_toNat] at hu
      simp [escStr, escChars, h1, h2, h3, h4, h5, h6, h7, h8, parseStrChars, hu, ih f' hf' rest]
    · simp [escStr, escChars, h1, h2, h3, h4, h5, h6, h7, h8, parseStrChars, ih f' hf' rest]

theorem nlInd_length (d : Nat) : (nlInd d).length = 4 * d + 1 := by
  simp [nlInd]

/-- Every dumped value begins with a character that is neither whitespace
nor a closing delimiter. -/
theorem dump_head_cons (v : Json) (d : Nat) :
    ∃ c t, dumpVal d v = c :: t ∧ isWsChar c = false ∧ c ≠ ']' ∧ c ≠ '\x7d' := by
  cases v with
  | null => exact ⟨'n', ['u', 'l', 'l'], by simp [dumpVal, nullChars], by decide, by decide, by decide⟩
  | bool b =>
    cases b with
    | true => exact ⟨'t', ['r', 'u', 'e'], by simp [dumpVal, trueChars], by decide, by decide, by decide⟩
    | false =>
      exact ⟨'f', ['a', 'l', 's', 'e'], by simp [dumpVal, falseChars], by decide, by decide,
        by decide⟩
  | num n =>
    by_cases hn : n < 0
    · refine ⟨'-', natChars n.natAbs, ?_, by decide, by decide, by decide⟩
      simp [dumpVal, intChars, hn]
    · obtain ⟨c, t, hct, hd⟩ := natChars_cons n.natAbs
      obtain ⟨_, _, _, _, _, hr1, hr2, _⟩ := digit_ne hd
      refine ⟨c, t, ?_, isWs_false_of_isDigit hd, hr1, hr2⟩
      simp [dumpVal, intChars, hn, hct]
  | str s =>
    exact ⟨'"', escStr s.data ++ ['"'], by simp [dumpVal, strQuote], by decide, by decide,
      by decide⟩
  | arr xs =>
    cases xs with
    | nil => exact ⟨'[', [']'], by simp [dumpVal], by decide, by decide, by decide⟩
    | cons x xs =>
      exact ⟨'[',
        nlInd (d + 1) ++ (dumpVal (d + 1) x ++ (dumpElems (d + 1) xs ++ (nlInd d ++ [']']))),
        by simp [dumpVal], by decide, by decide, by decide⟩
  | obj kvs =>
    cases kvs with
    | nil => exact ⟨'\x7b', ['\x7d'], by simp [dumpVal], by decide, by decide, by decide⟩
    | cons kv kvs =>
      exact ⟨'\x7b',
        nlInd (d + 1) ++ (dumpMember (d + 1) kv ++ (dumpMembers (d + 1) kvs
          ++ (nlInd d ++ ['\x7d']))),
        by simp [dumpVal], by decide, by decide, by decide⟩

/-- A dumped value is untouched by whitespace skipping. -/
theorem skipWs_dump (v : Json) (d : Nat) (z : List Char) :
    skipWs (dumpVal d v ++ z) = dumpVal d v ++ z := by
  obtain ⟨c, t, h, hw, _, _⟩ := dump_head_cons v d
  rw [h, List.cons_append, skipWs_cons_of_not_ws hw]

theorem headNotDigit_nlInd (d : Nat) (z : List Char) :
    headNotDigit (nlInd d ++ z) = true := by
  simp [nlInd, headNotDigit]

theorem headNotDigit_dumpElems (d : Nat) (xs : List Json) (z : List Char)
    (hz : headNotDigit z = true) : headNotDigit (dumpElems d xs ++ z) = true := by
  cases xs with
  | nil => simpa [dumpElems] using hz
  | cons y ys =>
    simp only [dumpElems, List.cons_append]
    simp [headNotDigit]

theorem headNotDigit_dumpMembers (d : Nat) (kvs : List (String × Json)) (z : List Char)
    (hz : headNotDigit z = true) : headNotDigit (dumpMembers d kvs ++ z) = true := by
  cases kvs with
  | nil => simpa [dumpMembers] using hz
  | cons kv kvs =>
    simp only [dumpMembers, List.cons_append]
    simp [headNotDigit]

/-- Canonical cons shape of a dumped object member. -/
theorem dumpMember_cons (d : Nat) (k : String) (v : Json) :
    dumpMember d (k, v) = '"' :: (escStr k.data ++ ('"' :: (':' :: ' ' :: dumpVal d v))) := by
  simp [dumpMember, strQuote]

/-- Rebuilding a string from its character data is the identity. -/
theorem string_mk_data (s : String) : String.mk s.data = s := rfl

/-- Parsing inverts serialization: simultaneous statement for values, array
element lists, and object member lists, by induction on parser fuel. -/
theorem rt_all : ∀ f : Nat,
    (∀ (v : Json) (d : Nat) (cs rest : List Char),
      skipWs cs = dumpVal d v ++ rest → (dumpVal d v).length + 1 ≤ f →
      headNotDigit rest = true → parseVal f cs = some (v, rest))
    ∧ (∀ (x : Json) (xs : List Json) (d : Nat) (cs rest : List Char),
      skipWs cs = dumpVal (d + 1) x ++ (dumpElems (d + 1) xs ++ (nlInd d ++ (']' :: rest))) →
      (dumpVal (d + 1) x).length + (dumpElems (d + 1) xs).length + 2 ≤ f →
      parseElems f cs = some (x :: xs, rest))
    ∧ (∀ (k : String) (v : Json) (kvs : List (String × Json)) (d : Nat) (cs rest : List Char),
      skipWs cs = dumpMember (d + 1) (k, v)
        ++ (dumpMembers (d + 1) kvs ++ (nlInd d ++ ('\x7d' :: rest))) →
      (dumpMember (d + 1) (k, v)).length + (dumpMembers (d + 1) kvs).length + 2 ≤ f →
      parseMembers f cs = some ((k, v) :: kvs, rest)) := by
  intro f
  induction f with
  | zero =>
    exact ⟨fun v d cs rest _ hlen _ => absurd hlen (by omega),
      fun x xs d cs rest _ hlen => absurd hlen (by omega),
      fun k v kvs d cs rest _ hlen => absurd hlen (by omega)⟩
  | succ f ih =>
    obtain ⟨ihV, ihE, ihM⟩ := ih
    refine ⟨?_, ?_, ?_⟩
    · intro v d cs rest hcs hlen hrest
      cases v with
      | null =>
        simp only [dumpVal, nullChars, List.cons_append] at hcs
        simp [parseVal, hcs, dropPref]
      | bool b =>
        cases b with
        | true =>
          simp only [dumpVal, trueChars, List.cons_append] at hcs
          simp [parseVal, hcs, dropPref]
        | false =>
          simp only [dumpVal, falseChars, List.cons_append] at hcs
          simp [parseVal, hcs, dropPref]
      | num n =>
        simp only [dumpVal] at hcs
        by_cases hn : n < 0
        · rw [intChars, if_pos hn, List.cons_append] at hcs
          have htd : takeDigits (natChars n.natAbs ++ rest) = (natChars n.natAbs, rest) :=
            takeDigits_append (natChars_digits _) hrest
          obtain ⟨c0, t0, hct, _⟩ := natChars_cons n.natAbs
          have hemp : (natChars n.natAbs).isEmpty = false := by rw [hct]; rfl
          have hdec : (-(decodeDigits (natChars n.natAbs) : Int)) = n := by
            rw [decodeDigits_natChars]; omega
          simp [parseVal, hcs, htd, hemp, hdec]
        · rw [intChars, if_neg hn] at hcs
          obtain ⟨c0, t0, hct, hd0⟩ := natChars_cons n.natAbs
          obtain ⟨hn1, hn2, hn3, hn4, hn5, _, _, _⟩ := digit_ne hd0
          have htd : takeDigits (natChars n.natAbs ++ rest) = (natChars n.natAbs, rest) :=
            takeDigits_append (natChars_digits _) hrest
          have hemp : (natChars n.natAbs).isEmpty = false := by rw [hct]; rfl
          have hdec : ((decodeDigits (natChars n.natAbs) : Int)) = n := by
            rw [decodeDigits_natChars]; omega
          rw [hct, List.cons_append] at hcs
          have harg : c0 :: (t0 ++ rest) = natChars n.natAbs ++ rest := by
            rw [hct, List.cons_append]
          simp only [parseVal, hcs]
          rw [if_neg hn1, if_neg hn2, if_neg hn3, if_neg hn4, if_neg hn5, if_pos hd0]
          rw [harg, htd]
          simp [hemp, hdec]
      | str s =>
        simp only [dumpVal, strQuote, List.cons_append, List.append_assoc,
          List.singleton_append] at hcs
        have hq : parseStrChars f (escStr s.data ++ ('"' :: rest)) = some (s.data, rest) := by
          apply parseStr_rt
          have he := escStr_length s.data
          simp only [dumpVal, strQuote, List.length_cons, List.length_append] at hlen
          omega
        simp [parseVal, hcs, hq]
      | arr xs =>
        cases xs with
        | nil =>
          simp only [dumpVal, List.cons_append] at hcs
          simp [parseVal, hcs, skipWs_cons_of_not_ws (show isWsChar ']' = false by decide)]
        | cons x xs =>
          simp only [dumpVal, List.cons_append, List.append_assoc, List.singleton_append,
            List.nil_append] at hcs
          have hsw : skipWs (nlInd (d + 1) ++ (dumpVal (d + 1) x ++ (dumpElems (d + 1) xs
              ++ (nlInd d ++ (']' :: rest)))))
              = dumpVal (d + 1) x ++ (dumpElems (d + 1) xs ++ (nlInd d ++ (']' :: rest))) := by
            rw [skipWs_nlInd, skipWs_dump]
          obtain ⟨c2, t2, hx2, hw2, hne2, _⟩ := dump_head_cons x (d + 1)
          have hElems : parseElems f (dumpVal (d + 1) x ++ (dumpElems (d + 1) xs
              ++ (nlInd d ++ (']' :: rest)))) = some (x :: xs, rest) := by
            apply ihE
            · rw [skipWs_dump]
            · simp only [dumpVal, nlInd_length, List.length_cons, List.length_append,
                List.length_singleton, List.append_assoc] at hlen ⊢
              omega
          have hsw2 : skipWs (nlInd (d + 1) ++ (dumpVal (d + 1) x ++ (dumpElems (d + 1) xs
              ++ (nlInd d ++ (']' :: rest)))))
              = c2 :: (t2 ++ (dumpElems (d + 1) xs ++ (nlInd d ++ (']' :: rest)))) := by
            rw [hsw, hx2, List.cons_append]
          rw [hx2, List.cons_append] at hElems
          simp [parseVal, hcs, hsw2, hne2, hElems]
      | obj kvs =>
        cases kvs with
        | nil =>
          simp only [dumpVal, List.cons_append] at hcs
          simp [parseVal, hcs, skipWs_cons_of_not_ws (show isWsChar '\x7d' = false by decide)]
        | cons kv kvs =>
          obtain ⟨k, v⟩ := kv
          simp only [dumpVal, List.cons_append, List.append_assoc, List.singleton_append,
            List.nil_append] at hcs
          have hsw : skipWs (nlInd (d + 1) ++ (dumpMember (d + 1) (k, v)
              ++ (dumpMembers (d + 1) kvs ++ (nlInd d ++ ('\x7d' :: rest)))))
              = dumpMember (d + 1) (k, v)
                ++ (dumpMembers (d + 1) kvs ++ (nlInd d ++ ('\x7d' :: rest))) := by
            rw [skipWs_nlInd, dumpMember_cons, List.cons_append,
              skipWs_cons_of_not_ws (by decide)]
          have hMem : parseMembers f (dumpMember (d + 1) (k, v)
              ++ (dumpMembers (d + 1) kvs ++ (nlInd d ++ ('\x7d' :: rest))))
              = some ((k, v) :: kvs, rest) := by
            apply ihM
            · rw [dumpMember_cons, List.cons_append, skipWs_cons_of_not_ws (by decide),
                ← List.cons_append, ← dumpMember_cons]
            · simp only [dumpVal, nlInd_length, List.length_cons, List.length_append,
                List.length_singleton, List.append_assoc] at hlen ⊢
              omega
          have hsw2 : skipWs (nlInd (d + 1) ++ (dumpMember (d + 1) (k, v)
              ++ (dumpMembers (d + 1) kvs ++ (nlInd d ++ ('\x7d' :: rest)))))
              = '"' :: ((escStr k.data ++ ('"' :: (':' :: ' ' :: dumpVal (d + 1) v)))
                  ++ (dumpMembers (d + 1) kvs ++ (nlInd d ++ ('\x7d' :: rest)))) := by
            rw [hsw, dumpMember_cons, List.cons_append]
          rw [dumpMember_cons] at hMem
          simp only [List.cons_append, List.append_assoc] at hMem
          simp [parseVal, hcs, hsw2, hMem]
    · intro x xs d cs rest hcs hlen
      have hrest1 : headNotDigit (dumpElems (d + 1) xs ++ (nlInd d ++ (']' :: rest))) = true :=
        headNotDigit_dumpElems _ _ _ (headNotDigit_nlInd _ _)
      have h1 : parseVal f cs
          = some (x, dumpElems (d + 1) xs ++ (nlInd d ++ (']' :: rest))) := by
        apply ihV x (d + 1) cs _ hcs _ hrest1
        omega
      cases xs with
      | nil =>
        have hsw : skipWs (dumpElems (d + 1) [] ++ (nlInd d ++ (']' :: rest)))
            = ']' :: rest := by
          simp only [dumpElems, List.nil_append]
          rw [skipWs_nlInd, skipWs_cons_of_not_ws (by decide)]
        simp [parseElems, h1, hsw]
      | cons y ys =>
        have hsw : skipWs (dumpElems (d + 1) (y :: ys) ++ (nlInd d ++ (']' :: rest)))
            = ',' :: (nlInd (d + 1) ++ (dumpVal (d + 1) y ++ (dumpElems (d + 1) ys
              ++ (nlInd d ++ (']' :: rest))))) := by
          simp only [dumpElems, List.cons_append, List.append_assoc]
          rw [skipWs_cons_of_not_ws (by decide)]
        have hNext : parseElems f (nlInd (d + 1) ++ (dumpVal (d + 1) y
            ++ (dumpElems (d + 1) ys ++ (nlInd d ++ (']' :: rest)))))
            = some (y :: ys, rest) := by
          apply ihE
          · rw [skipWs_nlInd, skipWs_dump]
          · simp only [dumpElems, nlInd_length, List.length_cons, List.length_append,
              List.append_assoc] at hlen ⊢
            omega
        simp [parseElems, h1, hsw, hNext]
    · intro k v kvs d cs rest hcs hlen
      simp only [dumpMember_cons, List.cons_append, List.append_assoc] at hcs
      have hk : parseStrChars f (escStr k.data ++ ('"' :: (':' :: (' ' :: (dumpVal (d + 1) v
          ++ (dumpMembers (d + 1) kvs ++ (nlInd d ++ ('\x7d' :: rest))))))))
          = some (k.data, ':' :: (' ' :: (dumpVal (d + 1) v
            ++ (dumpMembers (d + 1) kvs ++ (nlInd d ++ ('\x7d' :: rest)))))) := by
        apply parseStr_rt
        have he := escStr_length k.data
        simp only [dumpMember_cons, List.length_cons, List.length_append] at hlen
        omega
      have hv : parseVal f (' ' :: (dumpVal (d + 1) v ++ (dumpMembers (d + 1) kvs
          ++ (nlInd d ++ ('\x7d' :: rest)))))
          = some (v, dumpMembers (d + 1) kvs ++ (nlInd d ++ ('\x7d' :: rest))) := by
        apply ihV
        · rw [skipWs_cons_of_ws (by decide), skipWs_dump]
        · simp only [dumpMember_cons, List.length_cons, List.length_append] at hlen
          omega
        · exact headNotDigit_dumpMembers _ _ _ (headNotDigit_nlInd _ _)
      cases kvs with
      | nil =>
        have hsw2 : skipWs (dumpMembers (d + 1) [] ++ (nlInd d ++ ('\x7d' :: rest)))
            = '\x7d' :: rest := by
          simp only [dumpMembers, List.nil_append]
          rw [skipWs_nlInd, skipWs_cons_of_not_ws (by decide)]
        simp [parseMembers, hcs, hk, hv, hsw2,
          skipWs_cons_of_not_ws (show isWsChar ':' = false by decide), string_mk_data]
      | cons kv2 kvs2 =>
        obtain ⟨k2, v2⟩ := kv2
        have hsw2 : skipWs (dumpMembers (d + 1) ((k2, v2) :: kvs2)
            ++ (nlInd d ++ ('\x7d' :: rest)))
            = ',' :: (nlInd (d + 1) ++ (dumpMember (d + 1) (k2, v2)
              ++ (dumpMembers (d + 1) kvs2 ++ (nlInd d ++ ('\x7d' :: rest))))) := by
          simp only [dumpMembers, List.cons_append, List.append_assoc]
          rw [skipWs_cons_of_not_ws (by decide)]
        have hNext : parseMembers f (nlInd (d + 1) ++ (dumpMember (d + 1) (k2, v2)
            ++ (dumpMembers (d + 1) kvs2 ++ (nlInd d ++ ('\x7d' :: rest)))))
            = some ((k2, v2) :: kvs2, rest) := by
          apply ihM
          · rw [skipWs_nlInd, dumpMember_cons, List.cons_append,
              skipWs_cons_of_not_ws (by decide), ← List.cons_append, ← dumpMember_cons]
          · simp only [dumpMembers, dumpMember_cons, nlInd_length, List.length_cons,
              List.length_append, List.append_assoc] at hlen ⊢
            omega
        simp [parseMembers, hcs, hk, hv, hsw2, hNext,
          skipWs_cons_of_not_ws (show isWsChar ':' = false by decide), string_mk_data]

/-- Round-trip: parsing back a persisted `json.dump` rendering recovers the
value exactly. -/
theorem jsonParse_dumps (v : Json) : jsonParse (jsonDumps v) = some v := by
  have h := (rt_all ((dumpVal 0 v).length + 1)).1 v 0 (dumpVal 0 v ++ []) []
    (skipWs_dump v 0 []) (by simp) rfl
  rw [List.append_nil] at h
  simp [jsonParse, jsonDumps, h, skipWs]

/-- A validation-passing upload is returned unchanged by the validator. -/
theorem validate_ok {f : UploadedFile} (hn : f.filename ≠ "")
    (hx : pyEndsWith (pyLower f.filename) ".pdf" = true) :
    validate (some f) = Except.ok f := by
  simp [validate, hn, hx]

/-- Every validator rejection carries an `error`-keyed payload. -/
theorem validate_error_shape {file : Option UploadedFile} {b : Json}
    (h : validate file = Except.error b) : ∃ m, b = errBody m := by
  cases file with
  | none => simp [validate] at h; exact ⟨_, h.symm⟩
  | some f =>
    by_cases h1 : f.filename = ""
    · simp [validate, h1] at h; exact ⟨_, h.symm⟩
    · by_cases h2 : pyEndsWith (pyLower f.filename) ".pdf" = false
      · simp [validate, h1, h2] at h; exact ⟨_, h.symm⟩
      · simp [validate, h1, h2] at h

/-- Once the model is constructed, `generate_content` is invoked exactly once
with the composed prompt, whatever the call's outcome. -/
theorem extract_concepts_prompts (gemini : String → GeminiOutcome)
    (loads : String → Option Json) (dt ot tpl : String) :
    (extract_concepts_with_gemini false gemini loads dt ot tpl).2
      = [full_prompt dt ot tpl] := by
  cases hg : gemini (full_prompt dt ot tpl) with
  | raises m => simp [extract_concepts_with_gemini, hg]
  | returns r =>
    simp only [extract_concepts_with_gemini, hg, Bool.false_eq_true, if_false]
    split
    · rfl
    · split
      · rfl
      · split <;> rfl

/-- On a validation-passing request with readable configuration and a
parseable PDF, the handler reduces to the LLM/persistence stage. -/
theorem handle_llm_reached (env : Env) (f : UploadedFile) (oc tc : String)
    (pages : List String)
    (hf : env.file = some f) (hn : f.filename ≠ "")
    (hx : pyEndsWith (pyLower f.filename) ".pdf" = true)
    (ho : env.ontology = ReadResult.ok oc) (ht : env.promptTpl = ReadResult.ok tc)
    (hp : env.pdfOf f.content = PdfParse.doc pages) :
    handle_extraction env =
      (let r := extract_concepts_with_gemini env.modelInitFails env.gemini env.loads
         (pages.foldl (fun acc t => acc ++ t) "") oc tc
       match r.1 with
       | some extracted_data =>
         (match save_output ((splitext f.filename).1 ++ "_extraction.json")
             extracted_data OUTPUT_DIR env.mkdirsError env.writeError with
          | .raised e => (.crash e, ⟨[ONTOLOGY_FILE, PROMPT_FILE], r.2, []⟩)
          | .saved p c =>
            (.response 200 extracted_data, ⟨[ONTOLOGY_FILE, PROMPT_FILE], r.2, [(p, c)]⟩)
          | .writeFailedLogged _ =>
            (.response 200 extracted_data, ⟨[ONTOLOGY_FILE, PROMPT_FILE], r.2, []⟩))
       | none => (.response 500 (errBody llmErrMsg), ⟨[ONTOLOGY_FILE, PROMPT_FILE], r.2, []⟩)) := by
  simp only [handle_extraction, hf, validate_ok hn hx, ho, ht, hp, read_file,
    extract_text_from_pdf]

/-- The handler sends exactly one prompt once the LLM stage is reached. -/
theorem handle_llm_prompts (env : Env) (f : UploadedFile) (oc tc : String)
    (pages : List String)
    (hf : env.file = some f) (hn : f.filename ≠ "")
    (hx : pyEndsWith (pyLower f.filename) ".pdf" = true)
    (ho : env.ontology = ReadResult.ok oc) (ht : env.promptTpl = ReadResult.ok tc)
    (hp : env.pdfOf f.content = PdfParse.doc pages)
    (hm : env.modelInitFails = false) :
    (handle_extraction env).2.llmPrompts
      = [full_prompt (pages.foldl (fun acc t => acc ++ t) "") oc tc] := by
  have hh := handle_llm_reached env f oc tc pages hf hn hx ho ht hp
  rw [hm] at hh
  have h2 := extract_concepts_prompts env.gemini env.loads
    (pages.foldl (fun acc t => acc ++ t) "") oc tc
  rw [hh]
  cases hr : (extract_concepts_with_gemini false env.gemini env.loads
      (pages.foldl (fun acc t => acc ++ t) "") oc tc).1 with
  | none => simp [hr, h2]
  | some data =>
    cases hmk : env.mkdirsError with
    | some e => simp [hr, hmk, save_output, h2]
    | none =>
      cases hw : env.writeError with
      | some e2 => simp [hr, hmk, hw, save_output, h2]
      | none => simp [hr, hmk, hw, save_output, h2]

/-- When a candidate with parts arrives and its text parses to a non-`null`
value, `extract_concepts_with_gemini` returns exactly that value. -/
theorem extract_concepts_some (gemini : String → GeminiOutcome)
    (loads : String → Option Json) (dt ot tpl : String) (resp : GeminiResponse) (v : Json)
    (hg : gemini (full_prompt dt ot tpl) = .returns resp)
    (hc : resp.candidates ≠ [])
    (hparts : (resp.candidates.headD ⟨[]⟩).parts ≠ [])
    (hl : loads resp.text = some v) (hv : v ≠ Json.null) :
    (extract_concepts_with_gemini false gemini loads dt ot tpl).1 = some v := by
  have hc2 : ¬(resp.candidates.isEmpty = true) := by
    cases h : resp.candidates with
    | nil => exact absurd h hc
    | cons a l => simp
  have hp2 : ¬((resp.candidates.headD ⟨[]⟩).parts.isEmpty = true) := by
    cases h : (resp.candidates.headD ⟨[]⟩).parts with
    | nil => exact absurd h hparts
    | cons a l => simp
  have hv2 : ¬(v.isNull = true) := by
    cases v with
    | null => exact absurd rfl hv
    | bool b => simp [Json.isNull]
    | num n => simp [Json.isNull]
    | str s => simp [Json.isNull]
    | arr xs => simp [Json.isNull]
    | obj kvs => simp [Json.isNull]
  simp only [extract_concepts_with_gemini, hg, Bool.false_eq_true, if_false,
    if_neg hc2, if_neg hp2, hl, if_neg hv2]

/-- Every LLM-stage failure of the kinds the code checks for yields the
Python `None` sentinel. -/
theorem extract_concepts_none (gemini : String → GeminiOutcome)
    (loads : String → Option Json) (dt ot tpl : String)
    (hfail : (∃ e, gemini (full_prompt dt ot tpl) = .raises e) ∨
      ∃ resp, gemini (full_prompt dt ot tpl) = .returns resp ∧
        (resp.candidates = [] ∨ (resp.candidates.headD ⟨[]⟩).parts = [] ∨
          loads resp.text = none)) :
    (extract_concepts_with_gemini false gemini loads dt ot tpl).1 = none := by
  rcases hfail with ⟨e, hg⟩ | ⟨resp, hg, hcase⟩
  · simp [extract_concepts_with_gemini, hg]
  · simp only [extract_concepts_with_gemini, hg, Bool.false_eq_true, if_false]
    rcases hcase with hcand | hparts | hload
    · rw [if_pos (show resp.candidates.isEmpty = true by rw [hcand]; rfl)]
    · by_cases hcnd : resp.candidates.isEmpty = true
      · rw [if_pos hcnd]
      · rw [if_neg hcnd,
          if_pos (show (resp.candidates.headD ⟨[]⟩).parts.isEmpty = true by rw [hparts]; rfl)]
    · by_cases hcnd : resp.candidates.isEmpty = true
      · rw [if_pos hcnd]
      · by_cases hpts : (resp.candidates.headD ⟨[]⟩).parts.isEmpty = true
        · rw [if_neg hcnd, if_pos hpts]
        · rw [if_neg hcnd, if_neg hpts, hload]

/-- C1: for every request that reaches the LLM step (a validation-passing
upload, both configuration files readable, a parseable PDF, and a
constructed model), exactly one prompt is sent, and it is, in order: the
prompt template text, then the ontology wrapped in the labeled XML fenced
block, then the document text wrapped in the labeled text fenced block,
then the literal trailing marker requesting JSON output. -/
theorem c1_prompt_composition (env : Env) (f : UploadedFile) (oc tc : String)
    (pages : List String)
    (hf : env.file = some f) (hn : f.filename ≠ "")
    (hx : pyEndsWith (pyLower f.filename) ".pdf" = true)
    (ho : env.ontology = ReadResult.ok oc) (ht : env.promptTpl = ReadResult.ok tc)
    (hp : env.pdfOf f.content = PdfParse.doc pages)
    (hm : env.modelInitFails = false) :
    (handle_extraction env).2.llmPrompts =
      [tc ++ ontologyBlockOpen ++ oc ++ documentBlockOpen
        ++ pages.foldl (fun acc t => acc ++ t) "" ++ jsonOutputMarker] := by
  rw [handle_llm_prompts env f oc tc pages hf hn hx ho ht hp hm]
  rfl

/-- Witness for C1 at the baseline concrete environment. -/
theorem c1_prompt_composition_witness :
    (handle_extraction witBase).2.llmPrompts =
      ["TPL" ++ ontologyBlockOpen ++ "ONT" ++ documentBlockOpen
        ++ ["some text"].foldl (fun acc t => acc ++ t) "" ++ jsonOutputMarker] :=
  c1_prompt_composition witBase ⟨"case.pdf", [37, 80, 68, 70]⟩ "ONT" "TPL" ["some text"]
    rfl (by decide) (by decide) rfl rfl rfl rfl

/-- C2: the validator rejects with a 400 error payload exactly when the file
part is missing, the filename is empty, or the lowercased filename does not
end in `.pdf`; on rejection no configuration file is read and no LLM call
occurs, and on acceptance the file is passed on unchanged. -/
theorem c2_validator (env : Env) :
    ((∃ b, validate env.file = Except.error b) ↔
      env.file = none ∨ ∃ f, env.file = some f ∧
        (f.filename = "" ∨ pyEndsWith (pyLower f.filename) ".pdf" = false))
    ∧ (∀ b, validate env.file = Except.error b →
        (∃ m, b = errBody m) ∧ handle_extraction env = (.response 400 b, ⟨[], [], []⟩))
    ∧ (∀ f, env.file = some f → (∀ b, validate env.file ≠ Except.error b) →
        validate env.file = Except.ok f) := by
  cases hfe : env.file with
  | none =>
    refine ⟨⟨fun _ => Or.inl rfl,
      fun _ => ⟨errBody "No file part in the request", rfl⟩⟩, ?_, ?_⟩
    · intro b hb
      simp only [validate, Except.error.injEq] at hb
      subst hb
      exact ⟨⟨_, rfl⟩, by simp [handle_extraction, hfe, validate]⟩
    · intro f hf _
      exact Option.noConfusion hf
  | some f =>
    by_cases h1 : f.filename = ""
    · have hv : validate (some f) = .error (errBody "No selected file") := by
        simp [validate, h1]
      refine ⟨⟨fun _ => Or.inr ⟨f, rfl, Or.inl h1⟩, fun _ => ⟨_, hv⟩⟩, ?_, ?_⟩
      · intro b hb
        rw [hv] at hb
        injection hb with hb
        subst hb
        exact ⟨⟨_, rfl⟩, by simp [handle_extraction, hfe, hv]⟩
      · intro f2 hf2 hne
        exact absurd hv (hne _)
    · by_cases h2 : pyEndsWith (pyLower f.filename) ".pdf" = false
      · have hv : validate (some f)
            = .error (errBody "Invalid file type. Please upload a PDF.") := by
          simp [validate, h1, h2]
        refine ⟨⟨fun _ => Or.inr ⟨f, rfl, Or.inr h2⟩, fun _ => ⟨_, hv⟩⟩, ?_, ?_⟩
        · intro b hb
          rw [hv] at hb
          injection hb with hb
          subst hb
          exact ⟨⟨_, rfl⟩, by simp [handle_extraction, hfe, hv]⟩
        · intro f2 hf2 hne
          exact absurd hv (hne _)
      · have hx : pyEndsWith (pyLower f.filename) ".pdf" = true := by
          cases hh : pyEndsWith (pyLower f.filename) ".pdf" with
          | false => exact absurd hh h2
          | true => rfl
        have hv : validate (some f) = .ok f := validate_ok h1 hx
        refine ⟨⟨?_, ?_⟩, ?_, ?_⟩
        · rintro ⟨b, hb⟩
          rw [hv] at hb
          exact Except.noConfusion hb
        · rintro (hnone | ⟨f2, hf2, hcond⟩)
          · exact Option.noConfusion hnone
          · injection hf2 with hf2
            subst hf2
            rcases hcond with hc | hc
            · exact absurd hc h1
            · exact absurd hc h2
        · intro b hb
          rw [hv] at hb
          exact Except.noConfusion hb
        · intro f2 hf2 _
          injection hf2 with hf2
          subst hf2
          exact hv

/-- Witness for C2: an upper-case `.PDF` upload is accepted unchanged, and a
`.txt` upload is rejected with 400 before any configuration read or LLM
call. -/
theorem c2_validator_witness :
    validate (some ⟨"CASE.PDF", [37]⟩) = Except.ok ⟨"CASE.PDF", [37]⟩ ∧
    handle_extraction envTxt
      = (.response 400 (errBody "Invalid file type. Please upload a PDF."), ⟨[], [], []⟩) := by
  constructor
  · exact (c2_validator envUpperExt).2.2 ⟨"CASE.PDF", [37]⟩ rfl
      (fun b hb => Except.noConfusion hb)
  · exact ((c2_validator envTxt).2.1 (errBody "Invalid file type. Please upload a PDF.")
      rfl).2

/-- C3 counterexample: a model answer that is the JSON document `null`
parses successfully, yet the service responds 500, not 200 — `json.loads`
hands back Python `None`, the same sentinel the code uses for failure. -/
theorem c3_null_counterexample :
    witLoads (GeminiResponse.text ⟨[⟨["null"]⟩]⟩) = some Json.null ∧
    (handle_extraction envNullAnswer).1 = .response 500 (errBody llmErrMsg) ∧
    Outcome.response 500 (errBody llmErrMsg) ≠ Outcome.response 200 Json.null := by
  refine ⟨rfl, rfl, ?_⟩
  intro h
  injection h with h1 _
  exact absurd h1 (by decide)

/-- C3 as amended: whenever the candidate text parses as a JSON value other
than `null`, the service responds 200 with that value verbatim — no schema
validation — provided the output directory can be created (otherwise the
writer defect of C8 crashes the request before the response is built). -/
theorem c3_passthrough (env : Env) (f : UploadedFile) (oc tc : String)
    (pages : List String) (resp : GeminiResponse) (v : Json)
    (hf : env.file = some f) (hn : f.filename ≠ "")
    (hx : pyEndsWith (pyLower f.filename) ".pdf" = true)
    (ho : env.ontology = ReadResult.ok oc) (ht : env.promptTpl = ReadResult.ok tc)
    (hp : env.pdfOf f.content = PdfParse.doc pages)
    (hm : env.modelInitFails = false)
    (hg : env.gemini (full_prompt (pages.foldl (fun acc t => acc ++ t) "") oc tc)
      = .returns resp)
    (hc : resp.candidates ≠ [])
    (hparts : (resp.candidates.headD ⟨[]⟩).parts ≠ [])
    (hl : env.loads resp.text = some v)
    (hv : v ≠ Json.null)
    (hmk : env.mkdirsError = none) :
    (handle_extraction env).1 = .response 200 v := by
  have hh := handle_llm_reached env f oc tc pages hf hn hx ho ht hp
  rw [hm] at hh
  have hr := extract_concepts_some env.gemini env.loads
    (pages.foldl (fun acc t => acc ++ t) "") oc tc resp v hg hc hparts hl hv
  rw [hh]
  cases hw : env.writeError with
  | none => simp [hr, hmk, hw, save_output]
  | some e => simp [hr, hmk, hw, save_output]

/-- Witness for C3 as amended, at the baseline environment whose model
answers `42`. -/
theorem c3_passthrough_witness :
    (handle_extraction witBase).1 = .response 200 (Json.num 42) :=
  c3_passthrough witBase ⟨"case.pdf", [37, 80, 68, 70]⟩ "ONT" "TPL" ["some text"]
    ⟨[⟨["42"]⟩]⟩ (Json.num 42) rfl (by decide) (by decide) rfl rfl rfl rfl rfl
    (by simp) (by simp) rfl (fun h => Json.noConfusion h) rfl

/-- C4: when the request reaches the LLM step and the call raises, or the
response has no candidates, or the first candidate has no content parts, or
the candidate text is not valid JSON, the service responds 500 with the
extraction-failure payload and writes no output file. -/
theorem c4_llm_failure (env : Env) (f : UploadedFile) (oc tc : String)
    (pages : List String)
    (hf : env.file = some f) (hn : f.filename ≠ "")
    (hx : pyEndsWith (pyLower f.filename) ".pdf" = true)
    (ho : env.ontology = ReadResult.ok oc) (ht : env.promptTpl = ReadResult.ok tc)
    (hp : env.pdfOf f.content = PdfParse.doc pages)
    (hm : env.modelInitFails = false)
    (hfail : (∃ e, env.gemini (full_prompt (pages.foldl (fun acc t => acc ++ t) "") oc tc)
        = .raises e) ∨
      ∃ resp, env.gemini (full_prompt (pages.foldl (fun acc t => acc ++ t) "") oc tc)
          = .returns resp ∧
        (resp.candidates = [] ∨ (resp.candidates.headD ⟨[]⟩).parts = [] ∨
          env.loads resp.text = none)) :
    (handle_extraction env).1 = .response 500 (errBody llmErrMsg) ∧
    (handle_extraction env).2.written = [] := by
  have hh := handle_llm_reached env f oc tc pages hf hn hx ho ht hp
  rw [hm] at hh
  have hr := extract_concepts_none env.gemini env.loads
    (pages.foldl (fun acc t => acc ++ t) "") oc tc hfail
  rw [hh]
  constructor <;> simp [hr]

/-- Witness for C4: a provider error yields a 500 and no write. -/
theorem c4_llm_failure_witness :
    (handle_extraction envLlmRaises).1 = .response 500 (errBody llmErrMsg) ∧
    (handle_extraction envLlmRaises).2.written = [] :=
  c4_llm_failure envLlmRaises ⟨"case.pdf", [37, 80, 68, 70]⟩ "ONT" "TPL" ["some text"]
    rfl (by decide) (by decide) rfl rfl rfl rfl (Or.inl ⟨"quota exceeded", rfl⟩)

/-- C5: the extracted document text is the concatenation of the page texts
in document order with no separator; when that concatenation is empty the
pipeline still proceeds and issues exactly one LLM call whose document-text
section is empty. -/
theorem c5_text_concat :
    (∀ pages : List String,
      extract_text_from_pdf (PdfParse.doc pages) = some (String.join pages))
    ∧ (∀ (env : Env) (f : UploadedFile) (oc tc : String) (pages : List String),
      env.file = some f → f.filename ≠ "" → pyEndsWith (pyLower f.filename) ".pdf" = true →
      env.ontology = ReadResult.ok oc → env.promptTpl = ReadResult.ok tc →
      env.pdfOf f.content = PdfParse.doc pages → env.modelInitFails = false →
      String.join pages = "" →
      (handle_extraction env).2.llmPrompts = [full_prompt "" oc tc]) := by
  constructor
  · intro pages; rfl
  · intro env f oc tc pages hf hn hx ho ht hp hm hempty
    have hdt : pages.foldl (fun acc t => acc ++ t) "" = "" := hempty
    rw [handle_llm_prompts env f oc tc pages hf hn hx ho ht hp hm, hdt]

/-- Witness for C5: page-order concatenation on a one-page document, and one
LLM call with an empty document section for an all-empty-pages document. -/
theorem c5_text_concat_witness :
    extract_text_from_pdf (PdfParse.doc ["some text"]) = some (String.join ["some text"]) ∧
    (handle_extraction envEmptyPages).2.llmPrompts = [full_prompt "" "ONT" "TPL"] :=
  ⟨c5_text_concat.1 ["some text"],
   c5_text_concat.2 envEmptyPages ⟨"case.pdf", [37, 80, 68, 70]⟩ "ONT" "TPL" ["", ""]
     rfl (by decide) (by decide) rfl rfl rfl rfl rfl⟩

/-- C6: a byte stream PyPDF2 rejects makes text extraction fail with the
`PdfReadError` path, the service responds 400, and no LLM call occurs. -/
theorem c6_invalid_pdf (env : Env) (f : UploadedFile) (oc tc : String)
    (hf : env.file = some f) (hn : f.filename ≠ "")
    (hx : pyEndsWith (pyLower f.filename) ".pdf" = true)
    (ho : env.ontology = ReadResult.ok oc) (ht : env.promptTpl = ReadResult.ok tc)
    (hp : env.pdfOf f.content = PdfParse.readError) :
    extract_text_from_pdf (env.pdfOf f.content) = none ∧
    handle_extraction env
      = (.response 400 (errBody pdfErrMsg), ⟨[ONTOLOGY_FILE, PROMPT_FILE], [], []⟩) := by
  refine ⟨by rw [hp]; rfl, ?_⟩
  simp [handle_extraction, hf, validate_ok hn hx, ho, ht, read_file, hp,
    extract_text_from_pdf]

/-- Witness for C6 at a concrete corrupted-PDF environment. -/
theorem c6_invalid_pdf_witness :
    extract_text_from_pdf (envBadPdf.pdfOf [37, 80, 68, 70]) = none ∧
    handle_extraction envBadPdf
      = (.response 400 (errBody pdfErrMsg), ⟨[ONTOLOGY_FILE, PROMPT_FILE], [], []⟩) :=
  c6_invalid_pdf envBadPdf ⟨"case.pdf", [37, 80, 68, 70]⟩ "ONT" "TPL"
    rfl (by decide) (by decide) rfl rfl rfl

/-- C7: a missing configuration file and any other configuration I/O failure
produce distinct diagnostics, and each maps the request to the 500
server-configuration response. -/
theorem c7_config_failures :
    (∀ p, read_file p ReadResult.notFound = (none, ["Error: File not found at " ++ p]))
    ∧ (∀ p e, read_file p (ReadResult.ioError e)
        = (none, ["Error reading file " ++ p ++ ": " ++ e]))
    ∧ (∀ p e, "Error: File not found at " ++ p ≠ "Error reading file " ++ p ++ ": " ++ e)
    ∧ (∀ (env : Env) (f : UploadedFile),
        env.file = some f → f.filename ≠ "" → pyEndsWith (pyLower f.filename) ".pdf" = true →
        (env.ontology = ReadResult.notFound ∨ (∃ e, env.ontology = ReadResult.ioError e) ∨
          env.promptTpl = ReadResult.notFound ∨ (∃ e, env.promptTpl = ReadResult.ioError e)) →
        handle_extraction env
          = (.response 500 (errBody cfgErrMsg), ⟨[ONTOLOGY_FILE, PROMPT_FILE], [], []⟩)) := by
  refine ⟨fun p => rfl, fun p e => rfl, ?_, ?_⟩
  · intro p e h
    have h5 := congrArg (fun s => s.data[5]?) h
    simp only [String.data_append] at h5
    have e1 : ("Error: File not found at ".data ++ p.data)[5]? = some ':' := by
      rw [List.getElem?_append_left
        (by decide : (5 : Nat) < "Error: File not found at ".data.length)]
      rfl
    have e2 : ((("Error reading file ".data ++ p.data) ++ ": ".data) ++ e.data)[5]?
        = some ' ' := by
      have b1 : (5 : Nat) < (("Error reading file ".data ++ p.data) ++ ": ".data).length := by
        simp only [List.length_append, List.length_cons, List.length_nil]
        omega
      have b2 : (5 : Nat) < ("Error reading file ".data ++ p.data).length := by
        simp only [List.length_append, List.length_cons, List.length_nil]
        omega
      rw [List.getElem?_append_left b1, List.getElem?_append_left b2,
        List.getElem?_append_left (by decide : (5 : Nat) < ("Error reading file ".data).length)]
      rfl
    rw [e1, e2] at h5
    exact absurd h5 (by decide)
  · intro env f hf hn hx hcfg
    rcases hcfg with hON | ⟨e, hOE⟩ | hPN | ⟨e, hPE⟩
    · simp [handle_extraction, hf, validate_ok hn hx, hON, read_file]
    · simp [handle_extraction, hf, validate_ok hn hx, hOE, read_file]
    · cases hoo : env.ontology <;>
        simp [handle_extraction, hf, validate_ok hn hx, hPN, hoo, read_file]
    · cases hoo : env.ontology <;>
        simp [handle_extraction, hf, validate_ok hn hx, hPE, hoo, read_file]

/-- Witness for C7: the missing-ontology diagnostic and the resulting 500. -/
theorem c7_config_failures_witness :
    read_file ONTOLOGY_FILE ReadResult.notFound
      = (none, ["Error: File not found at " ++ ONTOLOGY_FILE]) ∧
    handle_extraction envCfgMissing
      = (.response 500 (errBody cfgErrMsg), ⟨[ONTOLOGY_FILE, PROMPT_FILE], [], []⟩) :=
  ⟨c7_config_failures.1 ONTOLOGY_FILE,
   c7_config_failures.2.2.2 envCfgMissing ⟨"case.pdf", [37, 80, 68, 70]⟩ rfl (by decide)
     (by decide) (Or.inl rfl)⟩

/-- C8 (code defect): when `os.makedirs` itself raises inside `save_output`,
the `except` block evaluates an f-string referencing the still-unassigned
local `filepath`, so instead of logging, `save_output` raises
`UnboundLocalError` — and the exception escapes the route handler, so the
200 response is lost. -/
theorem c8_writer_bug :
    save_output "case_extraction.json" (Json.num 42) OUTPUT_DIR (some "PermissionError") none
      = .raised "UnboundLocalError: local variable filepath referenced before assignment"
    ∧ (handle_extraction envMkdirFail).1
      = .crash "UnboundLocalError: local variable filepath referenced before assignment" :=
  ⟨rfl, rfl⟩

/-- C9: on a fully successful request the handler responds 200 with the
parsed value, persists its `json.dump` rendering (indent 4, non-ASCII kept)
to `<output-dir>/<stem>_extraction.json`, and parsing that file content back
recovers exactly the value returned in the response. -/
theorem c9_roundtrip (env : Env) (f : UploadedFile) (oc tc : String)
    (pages : List String) (resp : GeminiResponse) (v : Json)
    (hf : env.file = some f) (hn : f.filename ≠ "")
    (hx : pyEndsWith (pyLower f.filename) ".pdf" = true)
    (ho : env.ontology = ReadResult.ok oc) (ht : env.promptTpl = ReadResult.ok tc)
    (hp : env.pdfOf f.content = PdfParse.doc pages)
    (hm : env.modelInitFails = false)
    (hg : env.gemini (full_prompt (pages.foldl (fun acc t => acc ++ t) "") oc tc)
      = .returns resp)
    (hc : resp.candidates ≠ [])
    (hparts : (resp.candidates.headD ⟨[]⟩).parts ≠ [])
    (hl : env.loads resp.text = some v)
    (hv : v ≠ Json.null)
    (hmk : env.mkdirsError = none) (hw : env.writeError = none) :
    handle_extraction env
      = (.response 200 v,
        ⟨[ONTOLOGY_FILE, PROMPT_FILE],
          [full_prompt (pages.foldl (fun acc t => acc ++ t) "") oc tc],
          [(OUTPUT_DIR ++ "/" ++ ((splitext f.filename).1 ++ "_extraction.json"),
            jsonDumps v)]⟩)
    ∧ jsonParse (jsonDumps v) = some v := by
  have hh := handle_llm_reached env f oc tc pages hf hn hx ho ht hp
  rw [hm] at hh
  have hr := extract_concepts_some env.gemini env.loads
    (pages.foldl (fun acc t => acc ++ t) "") oc tc resp v hg hc hparts hl hv
  have h2 := extract_concepts_prompts env.gemini env.loads
    (pages.foldl (fun acc t => acc ++ t) "") oc tc
  refine ⟨?_, jsonParse_dumps v⟩
  rw [hh]
  simp [hr, hmk, hw, save_output, h2]

/-- Witness for C9 at the baseline environment. -/
theorem c9_roundtrip_witness :
    handle_extraction witBase
      = (.response 200 (Json.num 42),
        ⟨[ONTOLOGY_FILE, PROMPT_FILE],
          [full_prompt (["some text"].foldl (fun acc t => acc ++ t) "") "ONT" "TPL"],
          [(OUTPUT_DIR ++ "/" ++ ((splitext "case.pdf").1 ++ "_extraction.json"),
            jsonDumps (Json.num 42))]⟩)
    ∧ jsonParse (jsonDumps (Json.num 42)) = some (Json.num 42) :=
  c9_roundtrip witBase ⟨"case.pdf", [37, 80, 68, 70]⟩ "ONT" "TPL" ["some text"]
    ⟨[⟨["42"]⟩]⟩ (Json.num 42) rfl (by decide) (by decide) rfl rfl rfl rfl rfl
    (by simp) (by simp) rfl (fun h => Json.noConfusion h) rfl rfl

/-- C10 counterexample: with a failing `os.makedirs`, the handler does not
return a response at all — it propagates the writer's `UnboundLocalError`
(see C8), violating the claimed 200/400/500 response shape. -/
theorem c10_crash_counterexample :
    (handle_extraction envMkdirFail).1
      = Outcome.crash "UnboundLocalError: local variable filepath referenced before assignment"
    ∧ ¬ responseWellFormed (handle_extraction envMkdirFail).1 := by
  have hcr : (handle_extraction envMkdirFail).1
      = Outcome.crash
        "UnboundLocalError: local variable filepath referenced before assignment" := rfl
  refine ⟨hcr, ?_⟩
  rintro ⟨s, b, hres, _, _⟩
  rw [hcr] at hres
  exact Outcome.noConfusion hres

/-- C10 as amended: provided directory creation in the output writer does
not fail, the handler returns exactly one response, its status is 200, 400
or 500, and every 400/500 body is an object with a single `error` message
key. -/
theorem c10_response_shape (env : Env) (hmk : env.mkdirsError = none) :
    responseWellFormed (handle_extraction env).1 := by
  rcases hval : validate env.file with b | f
  · obtain ⟨m, rfl⟩ := validate_error_shape hval
    exact ⟨400, errBody m, by simp [handle_extraction, hval], Or.inr (Or.inl rfl),
      fun _ => ⟨m, rfl⟩⟩
  · cases hoc : (read_file ONTOLOGY_FILE env.ontology).1 with
    | none =>
      exact ⟨500, errBody cfgErrMsg, by simp [handle_extraction, hval, hoc],
        Or.inr (Or.inr rfl), fun _ => ⟨_, rfl⟩⟩
    | some oc =>
      cases hpc : (read_file PROMPT_FILE env.promptTpl).1 with
      | none =>
        exact ⟨500, errBody cfgErrMsg, by simp [handle_extraction, hval, hoc, hpc],
          Or.inr (Or.inr rfl), fun _ => ⟨_, rfl⟩⟩
      | some tc =>
        cases hpdf : extract_text_from_pdf (env.pdfOf f.content) with
        | none =>
          exact ⟨400, errBody pdfErrMsg,
            by simp [handle_extraction, hval, hoc, hpc, hpdf],
            Or.inr (Or.inl rfl), fun _ => ⟨_, rfl⟩⟩
        | some dt =>
          cases hr : (extract_concepts_with_gemini env.modelInitFails env.gemini env.loads
              dt oc tc).1 with
          | none =>
            exact ⟨500, errBody llmErrMsg,
              by simp [handle_extraction, hval, hoc, hpc, hpdf, hr],
              Or.inr (Or.inr rfl), fun _ => ⟨_, rfl⟩⟩
          | some data =>
            cases hw : env.writeError with
            | none =>
              exact ⟨200, data,
                by simp [handle_extraction, hval, hoc, hpc, hpdf, hr, save_output, hmk, hw],
                Or.inl rfl, fun hcon => absurd hcon (by decide)⟩
            | some e =>
              exact ⟨200, data,
                by simp [handle_extraction, hval, hoc, hpc, hpdf, hr, save_output, hmk, hw],
                Or.inl rfl, fun hcon => absurd hcon (by decide)⟩

/-- Witness for C10 as amended, at the baseline environment. -/
theorem c10_response_shape_witness : responseWellFormed (handle_extraction witBase).1 :=
  c10_response_shape witBase rfl
